import Mathlib

/-!
# Verification of the generative-simulation stepping engine

Shallow embedding of the simulation core of the repository (cellular
automata in `src/systems/cellular_automata.js`, L-systems in
`src/systems/l_system.js`, the slime-mold agent system in
`src/systems/agent_system.js`, and the factory in `src/system_factory.js`),
together with theorems settling the specification claims.

Modelling conventions:
* JS numbers appearing only in integer roles are `Nat`/`Int`; continuous
  coordinates and parameter values are `ℚ`.
* `Math.cos` / `Math.sin` / `Math.pow` / `Math.PI` are abstracted as explicit
  function/constant parameters (`cosF`, `sinF`, `powF`, `piQ`); theorems
  either hold for every such function or assume only `|cosF θ| ≤ 1`, which
  the real cosine satisfies.
* `Math.random()` streams are explicit oracles (`ℚ` arguments or `ℕ → ℚ`).
* A JS `NaN`-able number is `Option ℚ` (`none` = `NaN`/unparsable);
  an out-of-bounds JS array read is `Option.get? = none` (`undefined`).
-/

/-! ## Grids (`src/systems/cellular_automata.js`)

A grid is `rows × cols`; `cell y x` is `this.grid[y][x]`.  Only indices
`y < rows`, `x < cols` correspond to array entries; the step functions
recompute exactly those entries, modelled as a total function rebuild. -/

structure CAGrid where
  rows : Nat
  cols : Nat
  cell : Nat → Nat → Nat

/-- The eight `(dy, dx)` offsets scanned by `countNeighbors`
(`dy` outer loop `-1..1`, `dx` inner loop `-1..1`, skipping `(0,0)`). -/
def neighborOffsets : List (Int × Int) :=
  [(-1, -1), (-1, 0), (-1, 1), (0, -1), (0, 1), (1, -1), (1, 0), (1, 1)]

/-- `(i + d + size) % size`, the toroidal index of the JS code
(`const nx = (x + dx + this.cols) % this.cols`); for `i < size` and
`d ≥ -1` the JS value is non-negative, so `Int.toNat` is faithful. -/
def wrapIdx (size i : Nat) (d : Int) : Nat :=
  ((i : Int) + d + size).toNat % size

/-- `ConwayLife.countNeighbors`: sums the raw cell values of the eight
toroidal neighbours. -/
def ConwayLife.countNeighbors (g : CAGrid) (x y : Nat) : Nat :=
  (neighborOffsets.map fun d =>
    g.cell (wrapIdx g.rows y d.1) (wrapIdx g.cols x d.2)).sum

/-- Body of the `ConwayLife.step` double loop for one cell. -/
def ConwayLife.stepCell (g : CAGrid) (x y : Nat) : Nat :=
  let state := g.cell y x
  let neighbors := ConwayLife.countNeighbors g x y
  if state = 1 ∧ (neighbors < 2 ∨ neighbors > 3) then 0
  else if state = 0 ∧ neighbors = 3 then 1
  else state

/-- `ConwayLife.step`: every cell of the next buffer is computed from the
pre-step grid only, then the buffers are swapped. -/
def ConwayLife.step (g : CAGrid) : CAGrid :=
  { g with cell := fun y x => ConwayLife.stepCell g x y }

/-- Number of toroidal neighbours whose state is exactly `1` (the claims
speak of "live"/"firing" neighbour counts). -/
def liveNeighborCount (g : CAGrid) (x y : Nat) : Nat :=
  (neighborOffsets.filter fun d =>
    g.cell (wrapIdx g.rows y d.1) (wrapIdx g.cols x d.2) == 1).length

/-- A grid is binary when every cell is `0` or `1` (the Life state space). -/
def CAGrid.binary (g : CAGrid) : Prop :=
  ∀ y x, g.cell y x = 0 ∨ g.cell y x = 1

lemma sum_eq_count_one (l : List Nat) (h : ∀ v ∈ l, v = 0 ∨ v = 1) :
    l.sum = (l.filter fun v => v == 1).length := by
  induction l with
  | nil => simp
  | cons a t ih =>
    have ha := h a (List.mem_cons_self a t)
    have ht : ∀ v ∈ t, v = 0 ∨ v = 1 := fun v hv => h v (List.mem_cons_of_mem a hv)
    rcases ha with ha | ha <;> subst ha <;>
      simp [List.filter_cons, ih ht, Nat.add_comm]

/-- On a binary grid the summed neighbour count of `ConwayLife.countNeighbors`
equals the number of live (`= 1`) neighbours. -/
lemma countNeighbors_eq_liveNeighborCount (g : CAGrid) (hbin : g.binary)
    (x y : Nat) : ConwayLife.countNeighbors g x y = liveNeighborCount g x y := by
  unfold ConwayLife.countNeighbors liveNeighborCount
  rw [sum_eq_count_one]
  · simp only [List.filter_map, List.length_map]
    rfl
  · intro v hv
    simp only [List.mem_map] at hv
    obtain ⟨d, _, rfl⟩ := hv
    exact hbin _ _

/-- **C1.** After one `ConwayLife.step()`, on a binary (Life) grid: a dead
cell whose eight toroidal neighbours contain exactly 3 live cells is alive;
a live cell with fewer than 2 or more than 3 live neighbours is dead; a live
cell with exactly 2 or 3 live neighbours stays alive; all other cells keep
their state.  Every next state is computed from the pre-step grid only: by
construction `ConwayLife.step` reads `g` alone (double buffering). -/
theorem conway_step_spec (g : CAGrid) (hbin : g.binary) (x y : Nat) :
    (g.cell y x = 0 ∧ liveNeighborCount g x y = 3 →
      (ConwayLife.step g).cell y x = 1) ∧
    (g.cell y x = 1 ∧ (liveNeighborCount g x y < 2 ∨ liveNeighborCount g x y > 3) →
      (ConwayLife.step g).cell y x = 0) ∧
    (g.cell y x = 1 ∧ (liveNeighborCount g x y = 2 ∨ liveNeighborCount g x y = 3) →
      (ConwayLife.step g).cell y x = 1) ∧
    (g.cell y x = 0 ∧ liveNeighborCount g x y ≠ 3 →
      (ConwayLife.step g).cell y x = g.cell y x) := by
  have hC := countNeighbors_eq_liveNeighborCount g hbin x y
  refine ⟨?_, ?_, ?_, ?_⟩
  · rintro ⟨h1, h2⟩
    simp [ConwayLife.step, ConwayLife.stepCell, hC, h1, h2]
  · rintro ⟨h1, h2⟩
    rcases h2 with h2 | h2 <;> simp [ConwayLife.step, ConwayLife.stepCell, hC, h1, h2]
  · rintro ⟨h1, h2⟩
    rcases h2 with h2 | h2 <;> simp [ConwayLife.step, ConwayLife.stepCell, hC, h1, h2]
  · rintro ⟨h1, h2⟩
    simp [ConwayLife.step, ConwayLife.stepCell, hC, h1, h2]

/-- Witness for C1 on a concrete 3×3 blinker (middle row alive): the dead
cell at row 0, column 1 has exactly 3 live neighbours and is born. -/
theorem conway_step_spec_witness :
    CAGrid.binary ⟨3, 3, fun y _ => if y = 1 then 1 else 0⟩ ∧
    (ConwayLife.step ⟨3, 3, fun y _ => if y = 1 then 1 else 0⟩).cell 0 1 = 1 := by
  have hb : CAGrid.binary ⟨3, 3, fun y _ => if y = 1 then 1 else 0⟩ := by
    intro y x
    dsimp only
    split <;> simp
  exact ⟨hb, (conway_step_spec _ hb 1 0).1 ⟨by decide, by decide⟩⟩

/-- `BrianBrain.countNeighbors`: counts only toroidal neighbours in the
FIRING state (`=== 1`). -/
def BrianBrain.countNeighbors (g : CAGrid) (x y : Nat) : Nat :=
  (neighborOffsets.filter fun d =>
    g.cell (wrapIdx g.rows y d.1) (wrapIdx g.cols x d.2) == 1).length

/-- Body of the `BrianBrain.step` double loop for one cell
(states: 0 = OFF, 1 = FIRING, 2 = REFRACTORY; `nextState` starts as
`state`, so an OFF cell without exactly 2 firing neighbours stays OFF). -/
def BrianBrain.stepCell (g : CAGrid) (x y : Nat) : Nat :=
  let state := g.cell y x
  if state = 1 then 2
  else if state = 2 then 0
  else if state = 0 then
    (if BrianBrain.countNeighbors g x y = 2 then 1 else state)
  else state

/-- `BrianBrain.step`: new buffer computed from the pre-step grid, buffers
swapped. -/
def BrianBrain.step (g : CAGrid) : CAGrid :=
  { g with cell := fun y x => BrianBrain.stepCell g x y }

/-- **C2.** After one `BrianBrain.step()`: a firing cell (1) is refractory
(2); a refractory cell is off (0); an off cell becomes firing iff exactly 2
of its 8 toroidal neighbours were firing before the step (so counts of 1 or
3 do not fire), the count including only firing-state cells (see
`BrianBrain.countNeighbors`). -/
theorem brian_step_spec (g : CAGrid) (x y : Nat) :
    (g.cell y x = 1 → (BrianBrain.step g).cell y x = 2) ∧
    (g.cell y x = 2 → (BrianBrain.step g).cell y x = 0) ∧
    (g.cell y x = 0 →
      ((BrianBrain.step g).cell y x = 1 ↔ BrianBrain.countNeighbors g x y = 2)) := by
  refine ⟨?_, ?_, ?_⟩
  · intro h
    simp [BrianBrain.step, BrianBrain.stepCell, h]
  · intro h
    simp [BrianBrain.step, BrianBrain.stepCell, h]
  · intro h
    by_cases hc : BrianBrain.countNeighbors g x y = 2 <;>
      simp [BrianBrain.step, BrianBrain.stepCell, h, hc]

/-- Witness for C2 on a concrete 3×3 grid with a firing cell at (0,0), a
refractory cell at row 0 column 1, and an off cell at (1,1) having exactly
2 firing neighbours... here (1,1) has exactly 1 firing neighbour, so it
must stay off; all three transition clauses are exercised. -/
theorem brian_step_spec_witness :
    (BrianBrain.step ⟨3, 3, fun y x => if y = 0 ∧ x = 0 then 1
      else if y = 0 ∧ x = 1 then 2 else 0⟩).cell 0 0 = 2 ∧
    (BrianBrain.step ⟨3, 3, fun y x => if y = 0 ∧ x = 0 then 1
      else if y = 0 ∧ x = 1 then 2 else 0⟩).cell 0 1 = 0 ∧
    ¬ (BrianBrain.step ⟨3, 3, fun y x => if y = 0 ∧ x = 0 then 1
      else if y = 0 ∧ x = 1 then 2 else 0⟩).cell 1 1 = 1 := by
  refine ⟨(brian_step_spec _ 0 0).1 (by decide),
          (brian_step_spec _ 1 0).2.1 (by decide), ?_⟩
  have h := (brian_step_spec (⟨3, 3, fun y x => if y = 0 ∧ x = 0 then 1
      else if y = 0 ∧ x = 1 then 2 else 0⟩ : CAGrid) 1 1).2.2 (by decide)
  intro hcon
  exact absurd (h.mp hcon) (by decide)

/-! ## L-system generation (`src/systems/l_system.js`, `generateSystem`)

`params.axiom` is modelled as `seed : List Char`; `params.rules` as a
partial map `Char → Option (List Char)`.  The JS lookup `rules[char] || char`
treats an *empty* replacement string as falsy, falling back to the
character itself — modelled explicitly below. -/

/-- Replacement for one character: `this.params.rules[char] || char`. -/
def lsRewriteChar (rules : Char → Option (List Char)) (c : Char) : List Char :=
  match rules c with
  | some r => if r = [] then [c] else r
  | none => [c]

/-- One simultaneous rewriting pass (`for (const char of ...) tempString += ...`). -/
def lsRewrite (rules : Char → Option (List Char)) (s : List Char) : List Char :=
  s.flatMap (lsRewriteChar rules)

/-- `n`-fold rewriting of a string (the uncapped reference iterates). -/
def lsIterate (rules : Char → Option (List Char)) : Nat → List Char → List Char
  | 0, s => s
  | n + 1, s => lsIterate rules n (lsRewrite rules s)

/-- Result of `generateSystem`: `this.currentString` and
`this.effectiveIterations` (`none` models the field never being assigned,
which happens exactly when the loop body never runs). -/
structure GenResult where
  currentString : List Char
  effectiveIterations : Option Nat
deriving DecidableEq

/-- The `for (let i = 0; i < iterations; i++)` loop of `generateSystem`:
each pass rewrites, then — only when `i < iterations - 1` — compares the
new length against the 100000 cap, breaking early (and *keeping* the long
string) if exceeded; otherwise it commits and records
`effectiveIterations = iterations`. -/
def generateLoop (rules : Char → Option (List Char)) (iterations i : Nat)
    (cur : List Char) (eff : Option Nat) : GenResult :=
  if i < iterations then
    let temp := lsRewrite rules cur
    if 100000 < temp.length ∧ i < iterations - 1 then
      ⟨temp, some (i + 1)⟩
    else
      generateLoop rules iterations (i + 1) temp (some iterations)
  else ⟨cur, eff⟩
termination_by iterations - i

/-- `LSystemBase.generateSystem()` on axiom `seed` with the requested
iteration count. -/
def generateSystem (rules : Char → Option (List Char)) (seed : List Char)
    (iterations : Nat) : GenResult :=
  generateLoop rules iterations 0 seed none

lemma generateLoop_stop {rules iterations i cur eff} (h : ¬ i < iterations) :
    generateLoop rules iterations i cur eff = ⟨cur, eff⟩ := by
  rw [generateLoop]
  simp [h]

lemma generateLoop_break {rules iterations i cur eff} (h : i < iterations)
    (hb : 100000 < (lsRewrite rules cur).length ∧ i < iterations - 1) :
    generateLoop rules iterations i cur eff = ⟨lsRewrite rules cur, some (i + 1)⟩ := by
  rw [generateLoop]
  simp [h, hb.1, hb.2]

lemma generateLoop_continue {rules iterations i cur eff} (h : i < iterations)
    (hb : ¬ (100000 < (lsRewrite rules cur).length ∧ i < iterations - 1)) :
    generateLoop rules iterations i cur eff
      = generateLoop rules iterations (i + 1) (lsRewrite rules cur) (some iterations) := by
  rw [generateLoop]
  simp only [h, if_true]
  split
  · exact absurd (by assumption) hb
  · rfl

/-- If the loop is entered with a string within the cap and produces a
string over the cap, that output is a single rewriting pass applied to some
string within the cap: the cap can be exceeded by at most one pass. -/
lemma generateLoop_over_cap (rules : Char → Option (List Char)) (iterations : Nat) :
    ∀ (k i : Nat) (cur : List Char) (eff : Option Nat), iterations - i = k →
    cur.length ≤ 100000 →
    100000 < ((generateLoop rules iterations i cur eff).currentString).length →
    ∃ prev, prev.length ≤ 100000 ∧
      (generateLoop rules iterations i cur eff).currentString = lsRewrite rules prev := by
  intro k
  induction k with
  | zero =>
    intro i cur eff hk hcur hbig
    rw [generateLoop_stop (by omega)] at hbig
    exact absurd hbig (by simpa using hcur)
  | succ k ih =>
    intro i cur eff hk hcur hbig
    by_cases h : i < iterations
    · by_cases hb : 100000 < (lsRewrite rules cur).length ∧ i < iterations - 1
      · rw [generateLoop_break h hb]
        exact ⟨cur, hcur, rfl⟩
      · rw [generateLoop_continue h hb] at hbig ⊢
        by_cases h2 : i + 1 < iterations
        · have htemp : (lsRewrite rules cur).length ≤ 100000 := by
            by_contra hc
            exact hb ⟨by omega, by omega⟩
          exact ih (i + 1) (lsRewrite rules cur) (some iterations) (by omega) htemp hbig
        · rw [generateLoop_stop h2] at hbig ⊢
          exact ⟨cur, hcur, rfl⟩
    · rw [generateLoop_stop h] at hbig
      exact absurd hbig (by simpa using hcur)

/-- Invariant of the generation loop: either it stops early, recording an
effective count strictly below the requested one and returning an over-cap
string, or it runs to completion, recording the requested count, returning
the full iterate, with every rewrite committed strictly before the final
requested iteration within the cap. -/
lemma generateLoop_inv (rules : Char → Option (List Char)) (iterations : Nat) :
    ∀ (k i : Nat) (cur : List Char) (eff : Option Nat), iterations - i = k →
    i < iterations →
    (∃ e, (generateLoop rules iterations i cur eff).effectiveIterations = some e ∧
        e < iterations ∧
        100000 < ((generateLoop rules iterations i cur eff).currentString).length) ∨
    ((generateLoop rules iterations i cur eff).effectiveIterations = some iterations ∧
     (generateLoop rules iterations i cur eff).currentString
        = lsIterate rules (iterations - i) cur ∧
     ∀ j, i + j + 1 < iterations → (lsIterate rules (j + 1) cur).length ≤ 100000) := by
  intro k
  induction k with
  | zero => intro i cur eff hk h; omega
  | succ k ih =>
    intro i cur eff hk h
    by_cases hb : 100000 < (lsRewrite rules cur).length ∧ i < iterations - 1
    · rw [generateLoop_break h hb]
      exact Or.inl ⟨i + 1, rfl, by omega, hb.1⟩
    · rw [generateLoop_continue h hb]
      by_cases h2 : i + 1 < iterations
      · rcases ih (i + 1) (lsRewrite rules cur) (some iterations) (by omega) h2 with
          hl | ⟨he, hs, hall⟩
        · exact Or.inl hl
        · refine Or.inr ⟨he, ?_, ?_⟩
          · rw [hs]
            have harith : iterations - i = (iterations - (i + 1)) + 1 := by omega
            rw [harith]
            rfl
          · intro j hj
            rcases j with _ | j'
            · have hle : ¬ 100000 < (lsRewrite rules cur).length := fun hc =>
                hb ⟨hc, by omega⟩
              have h1 : lsIterate rules 1 cur = lsRewrite rules cur := rfl
              rw [h1]
              omega
            · exact hall j' (by omega)
      · rw [generateLoop_stop h2]
        refine Or.inr ⟨rfl, ?_, fun j hj => absurd hj (by omega)⟩
        have harith : iterations - i = 1 := by omega
        rw [harith]
        rfl

/-- A rule set whose single pass already explodes: `F → F^100001`. -/
def bigRules : Char → Option (List Char) :=
  fun c => if c = 'F' then some (List.replicate 100001 'F') else none

lemma lsRewrite_bigRules_F : lsRewrite bigRules ['F'] = List.replicate 100001 'F' := by
  have hne : List.replicate 100001 'F' ≠ ([] : List Char) := by
    rw [Ne, List.replicate_eq_nil_iff]
    norm_num
  have h1 : bigRules 'F' = some (List.replicate 100001 'F') := by
    unfold bigRules
    rw [if_pos rfl]
  unfold lsRewrite
  rw [List.flatMap_cons, List.flatMap_nil, List.append_nil]
  unfold lsRewriteChar
  rw [h1]
  exact if_neg hne

/-- **C3 counterexample.**  With axiom `F`, rule `F → F^100001` and one
requested iteration, `generateSystem` commits the rewriting result without
any cap check (the cap is only tested when `i < iterations - 1`): the
produced string has length 100001 > 100000, and the recorded effective
iteration count equals the requested count instead of being strictly less.
Both conjuncts of the claim fail at this input. -/
theorem lsystem_cap_cex :
    100000 < ((generateSystem bigRules ['F'] 1).currentString).length ∧
    (generateSystem bigRules ['F'] 1).effectiveIterations = some 1 := by
  have h0 : generateSystem bigRules ['F'] 1
      = ⟨List.replicate 100001 'F', some 1⟩ := by
    unfold generateSystem
    rw [generateLoop_continue (by norm_num) (by simp), lsRewrite_bigRules_F,
      generateLoop_stop (by norm_num)]
  rw [h0]
  refine ⟨?_, rfl⟩
  show 100000 < (List.replicate 100001 'F').length
  rw [List.length_replicate]
  norm_num

/-- **C3 (amended).**  What `generateSystem` actually guarantees: (a) an
over-cap output is at most one rewriting pass beyond a string within the
cap (provided the axiom itself is within the cap) — every iteration
committed before the final requested one stays ≤ 100000 symbols; and (b)
whenever some rewrite strictly before the final requested iteration
exceeds 100000 symbols, generation stops early and the recorded effective
iteration count is strictly less than the requested count.  The original
claim's stronger guarantees (output always ≤ 100000; early stop even when
only the final iteration overflows) are refuted by `lsystem_cap_cex`. -/
theorem lsystem_cap_amended (rules : Char → Option (List Char)) (seed : List Char)
    (iterations : Nat) :
    (seed.length ≤ 100000 →
      100000 < ((generateSystem rules seed iterations).currentString).length →
      ∃ prev, prev.length ≤ 100000 ∧
        (generateSystem rules seed iterations).currentString = lsRewrite rules prev) ∧
    ((∃ j, j + 1 < iterations ∧ 100000 < (lsIterate rules (j + 1) seed).length) →
      ∃ e, (generateSystem rules seed iterations).effectiveIterations = some e ∧
        e < iterations) := by
  constructor
  · intro hseed hbig
    exact generateLoop_over_cap rules iterations (iterations - 0) 0 seed none rfl hseed hbig
  · rintro ⟨j, hj, hlen⟩
    rcases generateLoop_inv rules iterations (iterations - 0) 0 seed none rfl
        (by omega) with ⟨e, he, helt, _⟩ | ⟨_, _, hall⟩
    · exact ⟨e, he, helt⟩
    · exact absurd hlen (by simpa using hall j (by omega))

/-- Witness for C3 (amended) at `F → F^100001`, axiom `F`, 3 requested
iterations: generation breaks at the first pass, the output is the single
over-cap rewrite of the axiom, and the effective count 1 < 3. -/
theorem lsystem_cap_amended_witness :
    (∃ prev, prev.length ≤ 100000 ∧
      (generateSystem bigRules ['F'] 3).currentString = lsRewrite bigRules prev) ∧
    (∃ e, (generateSystem bigRules ['F'] 3).effectiveIterations = some e ∧ e < 3) := by
  have hrep : 100000 < (List.replicate 100001 'F').length := by
    rw [List.length_replicate]
    norm_num
  have hlen1 : 100000 < (lsIterate bigRules 1 ['F']).length := by
    have h1 : lsIterate bigRules 1 ['F'] = lsRewrite bigRules ['F'] := rfl
    rw [h1, lsRewrite_bigRules_F]
    exact hrep
  have heval : 100000 < ((generateSystem bigRules ['F'] 3).currentString).length := by
    unfold generateSystem
    rw [generateLoop_break (by norm_num)
      ⟨by rw [lsRewrite_bigRules_F]; exact hrep, by norm_num⟩]
    show 100000 < (lsRewrite bigRules ['F']).length
    rw [lsRewrite_bigRules_F]
    exact hrep
  exact ⟨(lsystem_cap_amended bigRules ['F'] 3).1 (by norm_num) heval,
         (lsystem_cap_amended bigRules ['F'] 3).2 ⟨0, by norm_num, hlen1⟩⟩

/-! ## Agents (`src/systems/agent_system.js`)

An agent is `{x, y, angle}` plus a reference to the shared settings.
Coordinates, angles and settings are `ℚ`; `Math.cos`/`Math.sin` are
abstracted as explicit arguments `cosF`/`sinF` (theorems assume at most
`|cosF θ| ≤ 1`, true of the real cosine). -/

structure AgentSettings where
  moveSpeed : ℚ
  turnSpeed : ℚ
  sensorAngle : ℚ
  sensorDistance : ℚ
  depositionAmount : ℚ
  randomSteerStrength : ℚ

structure Agent where
  x : ℚ
  y : ℚ
  angle : ℚ

/-- `Agent.move` with `deltaTime = 1`:
`x += cos(angle)·moveSpeed; y += sin(angle)·moveSpeed`. -/
def Agent.move (cosF sinF : ℚ → ℚ) (s : AgentSettings) (a : Agent) : Agent :=
  { a with
    x := a.x + cosF a.angle * s.moveSpeed
    y := a.y + sinF a.angle * s.moveSpeed }

/-- One coordinate of `Agent.wrapBounds`: the two `if`s run in sequence on
the updated value (`if (x < 0) x += w; if (x >= w) x -= w`) — at most one
period is ever added and at most one subtracted. -/
def wrapCoord (v size : ℚ) : ℚ :=
  let v1 := if v < 0 then v + size else v
  if size ≤ v1 then v1 - size else v1

/-- `Agent.wrapBounds(width, height)`. -/
def Agent.wrapBounds (width height : ℚ) (a : Agent) : Agent :=
  { a with x := wrapCoord a.x width, y := wrapCoord a.y height }

/-- **C4 counterexample.**  One `SlimeMold.step()` moves each agent by
`senseAndSteer` (heading only), then `move`, then `wrapBounds`.  With
heading 0 (so `cos = 1`, `sin = 0`, delivered here by the constant
direction functions, which agree with the real cosine/sine at angle `0`),
`moveSpeed = 300` and a 100×100 field, an agent starting in bounds at the
origin ends at `x = 200`: `wrapBounds` subtracts the width only once, so
`0 ≤ x < width` fails — the claim is false for movement vectors longer
than one width. -/
theorem agent_wrap_cex :
    ((Agent.move (fun _ => 1) (fun _ => 0)
        ⟨300, 0, 0, 0, 0, 0⟩ ⟨0, 0, 0⟩).wrapBounds 100 100).x = 200 ∧
    ¬ ((Agent.move (fun _ => 1) (fun _ => 0)
        ⟨300, 0, 0, 0, 0, 0⟩ ⟨0, 0, 0⟩).wrapBounds 100 100).x < 100 := by
  constructor <;> norm_num [Agent.move, Agent.wrapBounds, wrapCoord]

/-- `wrapCoord` lands in `[0, size)` exactly when its input is within one
period of the interval. -/
lemma wrapCoord_mem (v size : ℚ) (h1 : -size ≤ v) (h2 : v < 2 * size) :
    0 ≤ wrapCoord v size ∧ wrapCoord v size < size := by
  unfold wrapCoord
  by_cases hv : v < 0
  · rw [if_pos hv]
    have hlt : v + size < size := by linarith
    rw [if_neg (by linarith)]
    constructor <;> linarith
  · rw [if_neg hv]
    by_cases hge : size ≤ v
    · rw [if_pos hge]
      constructor <;> linarith
    · rw [if_neg hge]
      constructor <;> linarith

/-- **C4 (amended).**  After `senseAndSteer` (which changes only the
heading — quantified here as the arbitrary post-steer angle inside `a`),
`move` and `wrapBounds`, the agent satisfies `0 ≤ x < width` and
`0 ≤ y < height` *provided* the pre-step position is already within
bounds and `moveSpeed` does not exceed either dimension (`|cosF|, |sinF|
≤ 1`, as for the real cosine/sine).  Far-outside pre-step positions or
movement vectors longer than a dimension are not recovered
(`agent_wrap_cex`): `wrapBounds` corrects by at most one period. -/
theorem agent_wrap_amended (cosF sinF : ℚ → ℚ)
    (hcos : ∀ θ, |cosF θ| ≤ 1) (hsin : ∀ θ, |sinF θ| ≤ 1)
    (s : AgentSettings) (a : Agent) (width height : ℚ)
    (hx0 : 0 ≤ a.x) (hx1 : a.x < width) (hy0 : 0 ≤ a.y) (hy1 : a.y < height)
    (hs0 : 0 ≤ s.moveSpeed) (hsw : s.moveSpeed ≤ width) (hsh : s.moveSpeed ≤ height) :
    (0 ≤ ((a.move cosF sinF s).wrapBounds width height).x ∧
      ((a.move cosF sinF s).wrapBounds width height).x < width) ∧
    (0 ≤ ((a.move cosF sinF s).wrapBounds width height).y ∧
      ((a.move cosF sinF s).wrapBounds width height).y < height) := by
  have hc := abs_le.mp (hcos a.angle)
  have hsn := abs_le.mp (hsin a.angle)
  have hcu : cosF a.angle * s.moveSpeed ≤ s.moveSpeed := by nlinarith [hc.1, hc.2]
  have hcl : -s.moveSpeed ≤ cosF a.angle * s.moveSpeed := by nlinarith [hc.1, hc.2]
  have hsu : sinF a.angle * s.moveSpeed ≤ s.moveSpeed := by nlinarith [hsn.1, hsn.2]
  have hsl : -s.moveSpeed ≤ sinF a.angle * s.moveSpeed := by nlinarith [hsn.1, hsn.2]
  constructor
  · exact wrapCoord_mem _ _ (by simp [Agent.move]; linarith) (by simp [Agent.move]; linarith)
  · exact wrapCoord_mem _ _ (by simp [Agent.move]; linarith) (by simp [Agent.move]; linarith)

/-- Witness for C4 (amended): in-bounds agent at (1/2, 1/2), heading 0,
speed 1 on a 2×2 field stays in bounds. -/
theorem agent_wrap_amended_witness :
    (0 ≤ ((Agent.move (fun _ => 1) (fun _ => 0)
        ⟨1, 0, 0, 0, 0, 0⟩ ⟨1/2, 1/2, 0⟩).wrapBounds 2 2).x ∧
      ((Agent.move (fun _ => 1) (fun _ => 0)
        ⟨1, 0, 0, 0, 0, 0⟩ ⟨1/2, 1/2, 0⟩).wrapBounds 2 2).x < 2) ∧
    (0 ≤ ((Agent.move (fun _ => 1) (fun _ => 0)
        ⟨1, 0, 0, 0, 0, 0⟩ ⟨1/2, 1/2, 0⟩).wrapBounds 2 2).y ∧
      ((Agent.move (fun _ => 1) (fun _ => 0)
        ⟨1, 0, 0, 0, 0, 0⟩ ⟨1/2, 1/2, 0⟩).wrapBounds 2 2).y < 2) :=
  agent_wrap_amended (fun _ => 1) (fun _ => 0)
    (fun _ => by norm_num) (fun _ => by norm_num)
    ⟨1, 0, 0, 0, 0, 0⟩ ⟨1/2, 1/2, 0⟩ 2 2
    (by norm_num) (by norm_num) (by norm_num) (by norm_num)
    (by norm_num) (by norm_num) (by norm_num)

/-- `Agent.sampleTrail(trailMap, mapWidth, x, y)`.  The trail map is the
renderer's RGBA pixel buffer (`4·width·height` bytes, the G channel at
`(gridY·mapWidth + gridX)·4 + 1` holds the pheromone).  The guard divides
`trailMap.length` by `mapWidth` — i.e. compares `gridY` against
`4·height`, not `height`.  A JS read past the array end yields `undefined`,
modelled as `List.get? = none`. -/
def Agent.sampleTrail (trailMap : List ℕ) (mapWidth : ℤ) (x y : ℚ) : Option ℕ :=
  let gridX : ℤ := ⌊x⌋
  let gridY : ℤ := ⌊y⌋
  if gridX < 0 ∨ mapWidth ≤ gridX ∨ gridY < 0 ∨
      ((trailMap.length : ℚ) / (mapWidth : ℚ)) ≤ (gridY : ℚ) then
    some 0
  else
    trailMap.get? ((gridY * mapWidth + gridX) * 4 + 1).toNat

/-- **C5 (code bug).**  On a 2×2 field (RGBA buffer of 16 bytes, all
channels 7, `mapWidth = 2`): sampling the in-field cell `(0,1)` returns
the stored intensity `7`; sampling far below the field (`y = 8`,
`⌊y⌋ = 8 ≥ 16/2`) returns the neutral `0`; but sampling just below the
field at `y = 2` (`height ≤ ⌊y⌋ < 4·height`) passes the guard — because
the guard compares against `length/mapWidth = 4·height` instead of
`height` — and reads index 17 past the end of the 16-byte buffer: an
`undefined` read (`none`), not the claimed neutral zero.  The claim
(and the code's own `// Out of bounds` intent) is violated for every
`y` with `height ≤ ⌊y⌋ < 4·height`. -/
theorem sampleTrail_out_of_bounds_bug :
    Agent.sampleTrail (List.replicate 16 7) 2 0 2 = none ∧
    Agent.sampleTrail (List.replicate 16 7) 2 0 1 = some 7 ∧
    Agent.sampleTrail (List.replicate 16 7) 2 0 8 = some 0 := by
  have e0 : (⌊(0 : ℚ)⌋ : ℤ) = 0 := by norm_num
  have e1 : (⌊(1 : ℚ)⌋ : ℤ) = 1 := by norm_num
  have e2 : (⌊(2 : ℚ)⌋ : ℤ) = 2 := by norm_num
  have e8 : (⌊(8 : ℚ)⌋ : ℤ) = 8 := by norm_num
  refine ⟨?_, ?_, ?_⟩ <;>
    · simp only [Agent.sampleTrail, e0, e1, e2, e8]
      norm_num

/-- The five-way steering decision of `Agent.senseAndSteer`, keyed on the
three sampled sensor weights; branches in source order. -/
inductive SteerBranch where
  | jitterStraight
  | turnRight
  | turnLeft
  | randomPick
  | fallbackJitter
deriving DecidableEq

/-- Branch selection of `Agent.senseAndSteer` (conditions verbatim from
the `if`/`else if` cascade; note the *strict* comparisons). -/
def steerBranch (wF wL wR : ℚ) : SteerBranch :=
  if wF > wL ∧ wF > wR then .jitterStraight
  else if wR > wL then .turnRight
  else if wL > wR then .turnLeft
  else if wL > wF ∧ wR > wF then .randomPick
  else .fallbackJitter

/-- Heading change applied by `Agent.senseAndSteer`: `r` models the one
`random(-1, 1)` draw of the taken branch, `coin` models
`Math.random() > 0.5` in the random-pick branch. -/
def steerDelta (s : AgentSettings) (wF wL wR r : ℚ) (coin : Bool) : ℚ :=
  match steerBranch wF wL wR with
  | .jitterStraight => r * s.randomSteerStrength
  | .turnRight => s.turnSpeed * (1 + r * s.randomSteerStrength * (1/2))
  | .turnLeft => -(s.turnSpeed * (1 + r * s.randomSteerStrength * (1/2)))
  | .randomPick => (if coin then 1 else -1) * s.turnSpeed
      * (1 + r * s.randomSteerStrength * (1/2))
  | .fallbackJitter => r * s.randomSteerStrength

/-- `Agent.senseAndSteer` updates only the heading (position untouched),
by the branch-selected delta. -/
def Agent.senseAndSteer (s : AgentSettings) (wF wL wR r : ℚ) (coin : Bool)
    (a : Agent) : Agent :=
  { a with angle := a.angle + steerDelta s wF wL wR r coin }

/-- **C8 counterexample.**  With forward = right = 1 > left = 0 the first
branch fails (it requires *strictly* greater), and `wR > wL` sends the
agent into the turn-right branch: with `turnSpeed = 7` and zero jitter the
heading changes by the full turn angle 7, although no side weight strictly
exceeds the forward weight — refuting both the claimed tie behaviour and
"a turn happens only when a side weight strictly exceeds forward". -/
theorem steer_tie_cex :
    steerBranch 1 0 1 = SteerBranch.turnRight ∧
    (Agent.senseAndSteer ⟨0, 7, 0, 0, 0, 0⟩ 1 0 1 0 true ⟨0, 0, 0⟩).angle = 7 := by
  constructor
  · decide
  · norm_num [Agent.senseAndSteer, steerDelta, steerBranch]

/-- **C8 (amended).**  Exact decision rule of `senseAndSteer`: the heading
is kept (bounded jitter only, of magnitude ≤ `randomSteerStrength` for
`|r| ≤ 1`) exactly when the forward weight *strictly* exceeds both side
weights; otherwise the strictly larger side wins a full (lightly jittered)
turn — in particular a forward/side tie with the other side smaller turns
toward that side; a side tie with both sides exceeding forward picks the
direction at random; and when all three weights are equal the fallback
applies the straight-ahead jitter. -/
theorem steer_amended (s : AgentSettings) (wF wL wR r : ℚ) (coin : Bool)
    (hr : |r| ≤ 1) (hrss : 0 ≤ s.randomSteerStrength) :
    (steerBranch wF wL wR = .jitterStraight ↔ wL < wF ∧ wR < wF) ∧
    (steerBranch wF wL wR = .turnRight ↔ ¬(wL < wF ∧ wR < wF) ∧ wL < wR) ∧
    (steerBranch wF wL wR = .turnLeft ↔ ¬(wL < wF ∧ wR < wF) ∧ wR < wL) ∧
    (steerBranch wF wL wR = .randomPick ↔ wL = wR ∧ wF < wL) ∧
    (steerBranch wF wL wR = .fallbackJitter ↔ wF = wL ∧ wL = wR) ∧
    (wF = wR ∧ wL < wF → steerBranch wF wL wR = .turnRight) ∧
    (wF = wL ∧ wR < wF → steerBranch wF wL wR = .turnLeft) ∧
    ((steerBranch wF wL wR = .jitterStraight ∨
        steerBranch wF wL wR = .fallbackJitter) →
      |steerDelta s wF wL wR r coin| ≤ s.randomSteerStrength) := by
  have hdelta : (steerBranch wF wL wR = .jitterStraight ∨
      steerBranch wF wL wR = .fallbackJitter) →
      |steerDelta s wF wL wR r coin| ≤ s.randomSteerStrength := by
    intro hb
    have habs : |r * s.randomSteerStrength| ≤ s.randomSteerStrength := by
      rw [abs_mul, abs_of_nonneg hrss]
      nlinarith [abs_nonneg r]
    rcases hb with hb | hb <;>
      · unfold steerDelta
        rw [hb]
        exact habs
  refine ⟨?_, ?_, ?_, ?_, ?_, ?_, ?_, hdelta⟩
  · unfold steerBranch
    split_ifs with h1 h2 h3 h4 <;> simp_all
    all_goals
      (intros
       first
         | linarith
         | (rcases lt_trichotomy wF wL with ht | ht | ht <;>
             first
               | linarith [h1 ht]
               | linarith [h4 ht]
               | linarith
               | (constructor <;> linarith)))
  · unfold steerBranch
    split_ifs with h1 h2 h3 h4 <;> simp_all
    all_goals
      (intros
       first
         | linarith
         | (rcases lt_trichotomy wF wL with ht | ht | ht <;>
             first
               | linarith [h1 ht]
               | linarith [h4 ht]
               | linarith
               | (constructor <;> linarith)))
  · unfold steerBranch
    split_ifs with h1 h2 h3 h4 <;> simp_all
    all_goals
      (intros
       first
         | linarith
         | (rcases lt_trichotomy wF wL with ht | ht | ht <;>
             first
               | linarith [h1 ht]
               | linarith [h4 ht]
               | linarith
               | (constructor <;> linarith)))
  · unfold steerBranch
    split_ifs with h1 h2 h3 h4 <;> simp_all
    all_goals
      (intros
       first
         | linarith
         | (rcases lt_trichotomy wF wL with ht | ht | ht <;>
             first
               | linarith [h1 ht]
               | linarith [h4 ht]
               | linarith
               | (constructor <;> linarith)))
  · unfold steerBranch
    split_ifs with h1 h2 h3 h4 <;> simp_all
    all_goals
      (intros
       first
         | linarith
         | (rcases lt_trichotomy wF wL with ht | ht | ht <;>
             first
               | linarith [h1 ht]
               | linarith [h4 ht]
               | linarith
               | (constructor <;> linarith)))
  · unfold steerBranch
    split_ifs with h1 h2 h3 h4 <;> simp_all
    all_goals
      (intros
       first
         | linarith
         | (rcases lt_trichotomy wF wL with ht | ht | ht <;>
             first
               | linarith [h1 ht]
               | linarith [h4 ht]
               | linarith
               | (constructor <;> linarith)))
  · unfold steerBranch
    split_ifs with h1 h2 h3 h4 <;> simp_all
    all_goals
      (intros
       first
         | linarith
         | (rcases lt_trichotomy wF wL with ht | ht | ht <;>
             first
               | linarith [h1 ht]
               | linarith [h4 ht]
               | linarith
               | (constructor <;> linarith)))

/-- Witness for C8 (amended) at weights forward 2, left 0, right 1 with
jitter draw 0 and strength 1/10: the forward weight strictly exceeds both
sides, the heading is kept, and the jitter is bounded by the strength. -/
theorem steer_amended_witness :
    steerBranch 2 0 1 = SteerBranch.jitterStraight ∧
    |steerDelta ⟨0, 1, 0, 0, 0, 1/10⟩ 2 0 1 0 true| ≤ (1/10 : ℚ) := by
  have h := steer_amended ⟨0, 1, 0, 0, 0, 1/10⟩ 2 0 1 0 true (by norm_num) (by norm_num)
  have hb : steerBranch 2 0 1 = SteerBranch.jitterStraight :=
    h.1.mpr ⟨by norm_num, by norm_num⟩
  exact ⟨hb, h.2.2.2.2.2.2.2 (Or.inl hb)⟩

/-! ## Parameter setting (`setParamValue` of the three variants)

The raw UI string is abstracted by its numeric parse: `parsed : Option ℚ`
is the value of `parseFloat(value)` (`none` = `NaN`, i.e. the string does
not parse as a number).  `parseInt` agrees with truncation of the parsed
value for inputs that are plain numerals, and is `NaN` exactly when
`parseFloat` is, which is all the claim needs.  JS `NaN` propagation
through `Math.max` and arithmetic is modelled by `Option.map`: `none`
stays `none`.  `degreesToRadians` (a multiplication by π/180) is
abstracted as `d2r`.  Grid-rebuild/reset side effects of a successful
`cellSize`/`agentCount`/L-system change are outside these records; the
second component of the slime/L-system results records whether
`this.reset()` runs (`needsReset`). -/

/-- JS `parseInt` applied to an already-parsed numeric value: truncation
toward zero; `NaN` propagates. -/
def jsParseInt (v : Option ℚ) : Option ℚ :=
  v.map fun q => ((q.num / (q.den : ℤ) : ℤ) : ℚ)

/-- JS `Math.max(c, v)` with a possibly-`NaN` second argument: `NaN`
propagates (`Math.max(1, NaN) = NaN`). -/
def jsMax (c : ℚ) (v : Option ℚ) : Option ℚ :=
  v.map fun q => max c q

/-- The two stored numeric parameters of `ConwayLife` (and, for
`cellSize`, of `BrianBrain`, whose override has the same shape). -/
structure LifeParams where
  cellSize : Option ℚ
  initialDensity : Option ℚ
deriving DecidableEq

/-- `ConwayLife.setParamValue`: `cellSize` stores
`Math.max(1, parseInt(value))`, `initialDensity` stores
`parseFloat(value)` — in both branches a `NaN` parse is stored as-is
(there is no guard).  The grid-rebuild side effects of the `cellSize`
branch are not modelled; only parameter storage matters here. -/
def ConwayLife.setParamValue (p : LifeParams) (paramId : String)
    (parsed : Option ℚ) : LifeParams :=
  if paramId = "cellSize" then
    { p with cellSize := jsMax 1 (jsParseInt parsed) }
  else if paramId = "initialDensity" then
    { p with initialDensity := parsed }
  else p

/-- Numeric parameters of `SlimeMold`. -/
structure SlimeParams where
  agentCount : Option ℚ
  moveSpeed : Option ℚ
  turnSpeed : Option ℚ
  sensorAngle : Option ℚ
  sensorDistance : Option ℚ
deriving DecidableEq

/-- `SlimeMold.setParamValue`: computes `parseFloat(value)` and returns
immediately when `isNaN` (`none`) — nothing is stored and no reset runs;
otherwise the switch updates one parameter and `agentCount` requests a
reset.  The returned `Bool` is the `needsReset` flag (whether
`this.reset()` runs at the end). -/
def SlimeMold.setParamValue (d2r : ℚ → ℚ) (p : SlimeParams) (paramId : String)
    (parsed : Option ℚ) : SlimeParams × Bool :=
  match parsed with
  | none => (p, false)
  | some v =>
    if paramId = "agentCount" then
      ({ p with agentCount := jsMax 1 (jsParseInt (some v)) }, true)
    else if paramId = "moveSpeed" then
      ({ p with moveSpeed := some (max 0 v) }, false)
    else if paramId = "turnSpeed" then
      ({ p with turnSpeed := some (d2r (max 0 v)) }, false)
    else if paramId = "sensorAngle" then
      ({ p with sensorAngle := some (d2r (max 0 v)) }, false)
    else if paramId = "sensorDistance" then
      ({ p with sensorDistance := some (max 1 v) }, false)
    else (p, false)

/-- Numeric parameters of `LSystemBase` (the string-valued `axiom` and
rule entries are not affected by numeric parsing and are omitted). -/
structure LSysParams where
  iterations : Option ℚ
  angle : Option ℚ
  randomness : Option ℚ
deriving DecidableEq

/-- `LSystemBase.setParamValue` on its numeric parameters: `iterations`
stores `Math.max(0, parseInt(value))`, `angle` and `randomness` store
`parseFloat(value)` — a `NaN` parse is stored in all three branches, and
`needsReset` stays `true`, so `reset()` regenerates from the poisoned
parameters. -/
def LSystemBase.setParamValue (p : LSysParams) (paramId : String)
    (parsed : Option ℚ) : LSysParams × Bool :=
  if paramId = "iterations" then ({ p with iterations := jsMax 0 (jsParseInt parsed) }, true)
  else if paramId = "angle" then ({ p with angle := parsed }, true)
  else if paramId = "randomness" then ({ p with randomness := parsed }, true)
  else (p, false)

/-- **C6 counterexample.**  `ConwayLife.setParamValue('initialDensity', v)`
with an unparsable `v` (`parseFloat` = `NaN`, modelled as `none`) does
*not* leave the parameter at its previous value `1/4`: the `NaN` is stored
(the code has no `isNaN` guard, unlike `SlimeMold`). -/
theorem setparam_nan_cex :
    (ConwayLife.setParamValue ⟨some 10, some (1/4)⟩ "initialDensity" none).initialDensity
      = none ∧
    (ConwayLife.setParamValue ⟨some 10, some (1/4)⟩ "initialDensity" none).initialDensity
      ≠ (⟨some 10, some (1/4)⟩ : LifeParams).initialDensity := by
  constructor <;> simp [ConwayLife.setParamValue]

/-- **C6 (amended).**  Only `SlimeMold.setParamValue` ignores unparsable
numeric input: for every parameter id, a `NaN` parse returns the state
unchanged with no reset.  `ConwayLife` and `LSystemBase` have no such
guard: their numeric branches store the `NaN` result (shown for
`initialDensity`, `cellSize`, `iterations`, `angle` and `randomness`;
`BrianBrain.setParamValue` is the same code shape as the `cellSize`
branch). -/
theorem setparam_nan_amended (d2r : ℚ → ℚ) (p : SlimeParams) (paramId : String)
    (q : LifeParams) (l : LSysParams) :
    SlimeMold.setParamValue d2r p paramId none = (p, false) ∧
    (ConwayLife.setParamValue q "initialDensity" none).initialDensity = none ∧
    (ConwayLife.setParamValue q "cellSize" none).cellSize = none ∧
    ((LSystemBase.setParamValue l "iterations" none).1.iterations = none ∧
      (LSystemBase.setParamValue l "iterations" none).2 = true) ∧
    (LSystemBase.setParamValue l "angle" none).1.angle = none ∧
    (LSystemBase.setParamValue l "randomness" none).1.randomness = none := by
  refine ⟨rfl, ?_, ?_, ⟨?_, ?_⟩, ?_, ?_⟩ <;>
    simp [ConwayLife.setParamValue, LSystemBase.setParamValue, jsMax, jsParseInt]

/-! ## Factory (`src/system_factory.js`, `createSystemInstance`)

The registry lookup `systemRegistry[systemId]` is modelled as an
`Option`al constructor; running `new SystemClass(width, height)` may throw,
modelled as `Except` (`error` = the thrown exception).  The JS function
returns the constructed instance, or `null` from the `catch` block, or a
fresh base `GenerativeSystem` when the id is not registered. -/

inductive CreateResult (α : Type) where
  | created (a : α)
  | nullReturned
  | baseFallback
deriving DecidableEq

/-- `createSystemInstance`: on a registered id whose constructor throws,
the `catch` block logs and returns `null`; the inert base entity is
returned only for ids missing from the registry. -/
def createSystemInstance {α : Type} (lookup : Option (Except String α)) :
    CreateResult α :=
  match lookup with
  | some (Except.ok inst) => CreateResult.created inst
  | some (Except.error _) => CreateResult.nullReturned
  | none => CreateResult.baseFallback

/-- **C7 counterexample.**  A registered variant whose constructor throws
makes the factory return `null` — not an inert fallback entity (and not
the constructed instance): the claim's fallback behaviour is reserved for
*unregistered* ids. -/
theorem factory_null_cex :
    createSystemInstance (α := Unit) (some (Except.error "boom"))
        = CreateResult.nullReturned ∧
    createSystemInstance (α := Unit) (some (Except.error "boom"))
        ≠ CreateResult.baseFallback := by
  constructor <;> simp [createSystemInstance]

/-- **C7 (amended).**  The factory never propagates the constructor's
exception (it is total on the `Except` result): a throwing constructor
yields `null`, an unknown system id yields the inert base
`GenerativeSystem` fallback, and a successful construction yields the
instance. -/
theorem factory_fallback_amended {α : Type} (e : String) (a : α) :
    createSystemInstance (some (Except.error (α := α) e))
        = CreateResult.nullReturned ∧
    createSystemInstance (α := α) none = CreateResult.baseFallback ∧
    createSystemInstance (some (Except.ok a)) = CreateResult.created a :=
  ⟨rfl, rfl, rfl⟩

/-! ## Brian's Brain pointer interaction (`toggleCell`, `calculatePopulation`) -/

/-- Full live state of a `BrianBrain` instance as far as pointer
interaction is concerned: grid dimensions, `cellSize` (pixels), the live
grid and the cached `population` field. -/
structure BBState where
  rows : Nat
  cols : Nat
  cellSize : ℚ
  grid : Nat → Nat → Nat
  population : Nat

/-- `BrianBrain.calculatePopulation()`: a fresh recount of the firing
(`=== 1`) cells over the whole grid (`grid.flat().reduce(...)`). -/
def BrianBrain.calculatePopulation (rows cols : Nat) (grid : Nat → Nat → Nat) : Nat :=
  ∑ y ∈ Finset.range rows, ∑ x ∈ Finset.range cols, (if grid y x = 1 then 1 else 0)

/-- `BrianBrain.toggleCell(canvasX, canvasY)`: maps canvas pixels to the
cell under them (`Math.floor(canvas / cellSize)`), and when that cell is
in range cycles its state by `(state + 1) % 3` and recounts the firing
population; out-of-range coordinates change nothing. -/
def BrianBrain.toggleCell (st : BBState) (canvasX canvasY : ℚ) : BBState :=
  let gridX : Int := ⌊canvasX / st.cellSize⌋
  let gridY : Int := ⌊canvasY / st.cellSize⌋
  if 0 ≤ gridY ∧ gridY < st.rows ∧ 0 ≤ gridX ∧ gridX < st.cols then
    let g : Nat → Nat → Nat := fun y x =>
      if y = gridY.toNat ∧ x = gridX.toNat then (st.grid y x + 1) % 3 else st.grid y x
    { st with grid := g,
              population := BrianBrain.calculatePopulation st.rows st.cols g }
  else st

/-- **C10.** For a pointer event mapping to an in-range cell,
`BrianBrain.toggleCell` advances exactly that cell by `(state + 1) % 3`
(off → firing → refractory → off), leaves every other cell unchanged, and
leaves the reported population equal to a fresh recount of firing cells in
the updated grid; coordinates mapping outside the grid change nothing. -/
theorem brian_toggle_spec (st : BBState) (canvasX canvasY : ℚ) :
    ((0 ≤ ⌊canvasY / st.cellSize⌋ ∧ ⌊canvasY / st.cellSize⌋ < st.rows ∧
      0 ≤ ⌊canvasX / st.cellSize⌋ ∧ ⌊canvasX / st.cellSize⌋ < st.cols) →
      ((BrianBrain.toggleCell st canvasX canvasY).grid
          ⌊canvasY / st.cellSize⌋.toNat ⌊canvasX / st.cellSize⌋.toNat
        = (st.grid ⌊canvasY / st.cellSize⌋.toNat ⌊canvasX / st.cellSize⌋.toNat + 1) % 3 ∧
      (∀ y x, ¬ (y = ⌊canvasY / st.cellSize⌋.toNat ∧ x = ⌊canvasX / st.cellSize⌋.toNat) →
        (BrianBrain.toggleCell st canvasX canvasY).grid y x = st.grid y x) ∧
      (BrianBrain.toggleCell st canvasX canvasY).population
        = BrianBrain.calculatePopulation st.rows st.cols
            (BrianBrain.toggleCell st canvasX canvasY).grid)) ∧
    (¬ (0 ≤ ⌊canvasY / st.cellSize⌋ ∧ ⌊canvasY / st.cellSize⌋ < st.rows ∧
        0 ≤ ⌊canvasX / st.cellSize⌋ ∧ ⌊canvasX / st.cellSize⌋ < st.cols) →
      BrianBrain.toggleCell st canvasX canvasY = st) := by
  constructor
  · intro hin
    refine ⟨?_, ?_, ?_⟩
    · simp [BrianBrain.toggleCell, hin]
    · intro y x hne
      simp [BrianBrain.toggleCell, hin, hne]
    · simp [BrianBrain.toggleCell, hin]
  · intro hout
    simp [BrianBrain.toggleCell, hout]

/-- Witness for C10: a 2×2 grid with cell size 10, a firing cell at
(0,0), pointer at canvas (5, 5) (mapping to cell (0,0)): the cell cycles
to refractory and the population recount drops to 0. -/
theorem brian_toggle_spec_witness :
    (BrianBrain.toggleCell
        ⟨2, 2, 10, (fun y x => if y = 0 ∧ x = 0 then 1 else 0), 1⟩ 5 5).grid 0 0 = 2 ∧
    (BrianBrain.toggleCell
        ⟨2, 2, 10, (fun y x => if y = 0 ∧ x = 0 then 1 else 0), 1⟩ 5 5).population
      = BrianBrain.calculatePopulation 2 2
          (BrianBrain.toggleCell
            ⟨2, 2, 10, (fun y x => if y = 0 ∧ x = 0 then 1 else 0), 1⟩ 5 5).grid := by
  have hfl : (⌊(5 : ℚ) / 10⌋ : ℤ) = 0 := by norm_num
  have h := (brian_toggle_spec
      ⟨2, 2, 10, (fun y x => if y = 0 ∧ x = 0 then 1 else 0), 1⟩ 5 5).1
      (by rw [hfl]; norm_num)
  refine ⟨?_, h.2.2⟩
  have h1 := h.1
  rw [hfl] at h1
  simpa using h1

/-! ## Turtle interpretation (`src/systems/l_system.js`)

Segments carry the optional leaf decoration attached by `]`; the leaf's
`hsl(110, 60%, (60+depth·3)%)` colour string is represented by its only
varying datum, the lightness `60 + depth·3`.  `lines` is kept most-recent
first (`linesRev`) so that `]` can decorate the last emitted segment; the
interpreter returns the reversed (source-ordered) list.  Each loop
iteration of the Tree interpreter draws `Math.random()` twice — for
`randAngle` and `randLenFactor` — before the `switch`, so the stream
index is `2k`/`2k+1` at character `k`.  The Koch interpreter contains no
`Math.random()` call at all. -/

/-- `params` record shared by `LSystemTree` and `KochSnowflake`
(`axiom` is `seed`). -/
structure TurtleSysParams where
  iterations : Nat
  angle : ℚ
  seed : List Char
  rules : Char → Option (List Char)
  initialLengthFactor : ℚ
  lengthFactor : ℚ
  initialThickness : ℚ
  thicknessFactor : ℚ
  randomness : ℚ

/-- `degreesToRadians(degrees)` with `Math.PI` abstracted as `piQ`. -/
def degreesToRadians (piQ degrees : ℚ) : ℚ := degrees * (piQ / 180)

inductive LeafInfo where
  | noLeaf
  | ellipse (size : ℚ) (lightness : ℚ)
deriving DecidableEq

structure LineSeg where
  x1 : ℚ
  y1 : ℚ
  x2 : ℚ
  y2 : ℚ
  thickness : ℚ
  leaf : LeafInfo
deriving DecidableEq

/-- `TurtleState`: `{x, y, angle, len, thickness}`. -/
structure TurtleState where
  x : ℚ
  y : ℚ
  angle : ℚ
  len : ℚ
  thickness : ℚ
deriving DecidableEq

/-- Interpreter state: active turtle, branch stack (top first), emitted
segments most-recent first. -/
structure TState where
  cur : TurtleState
  stack : List TurtleState
  linesRev : List LineSeg
deriving DecidableEq

/-- Replace the decoration of the most recently emitted segment. -/
def setLeaf (leaf : LeafInfo) : List LineSeg → List LineSeg
  | [] => []
  | l :: ls => { l with leaf := leaf } :: ls

/-- One character of `LSystemTree.interpretSystem`'s `switch`, with the
iteration's two jitter draws already combined into `randAngle` and
`randLenFactor`. -/
def treeStepChar (p : TurtleSysParams) (cosF sinF : ℚ → ℚ)
    (angleRad randAngle randLenFactor : ℚ) (st : TState) (c : Char) : TState :=
  if c = 'F' then
    let nextX := st.cur.x + cosF st.cur.angle * st.cur.len * randLenFactor
    let nextY := st.cur.y + sinF st.cur.angle * st.cur.len * randLenFactor
    { st with
      cur := { st.cur with x := nextX, y := nextY },
      linesRev := ⟨st.cur.x, st.cur.y, nextX, nextY,
        max (2/5) st.cur.thickness, LeafInfo.noLeaf⟩ :: st.linesRev }
  else if c = '+' then
    { st with cur := { st.cur with angle := st.cur.angle + (angleRad + randAngle) } }
  else if c = '-' then
    { st with cur := { st.cur with angle := st.cur.angle - (angleRad + randAngle) } }
  else if c = '[' then
    { st with
      stack := st.cur :: st.stack,
      cur := { st.cur with
        len := st.cur.len * p.lengthFactor,
        thickness := st.cur.thickness * p.thicknessFactor } }
  else if c = ']' then
    let st1 :=
      if st.linesRev ≠ [] ∧ st.stack ≠ [] then
        { st with linesRev :=
            setLeaf (LeafInfo.ellipse
              (max (3/2) (st.cur.thickness * (3/2)
                * (1 + ((p.iterations : ℚ) - (st.stack.length : ℚ)) / (p.iterations : ℚ))))
              (60 + (st.stack.length : ℚ) * 3)) st.linesRev }
      else st
    match st1.stack with
    | t :: rest => { st1 with cur := t, stack := rest }
    | [] => st1
  else st

/-- The `for (const char of this.currentString)` loop of the Tree
interpreter: character `k` consumes stream entries `2k` and `2k+1`
(`randAngle`, `randLenFactor` are computed every iteration, whatever the
character). -/
def treeInterpGo (p : TurtleSysParams) (cosF sinF : ℚ → ℚ) (angleRad : ℚ)
    (ρ : ℕ → ℚ) : List Char → ℕ → TState → TState
  | [], _, st => st
  | c :: cs, k, st =>
    let randAngle := (ρ (2 * k) - 1/2) * angleRad * p.randomness
    let randLenFactor := 1 + (ρ (2 * k + 1) - 1/2) * p.randomness * (1/2)
    treeInterpGo p cosF sinF angleRad ρ cs (k + 1)
      (treeStepChar p cosF sinF angleRad randAngle randLenFactor st c)

/-- `LSystemTree.interpretSystem()` on the generated string `s`, with the
recorded effective iteration count `effQ` (as a number): starts at the
bottom centre pointing up (`-π/2`), with the heuristic length scaling
`initialLen / pow(lengthFactor, -eff·0.5)`. -/
def LSystemTree.interpretSystem (p : TurtleSysParams) (width height piQ : ℚ)
    (cosF sinF : ℚ → ℚ) (powF : ℚ → ℚ → ℚ) (ρ : ℕ → ℚ) (effQ : ℚ)
    (s : List Char) : List LineSeg :=
  let initialLen := height * p.initialLengthFactor
  let start : TurtleState :=
    ⟨width / 2, height, -(piQ / 2),
      initialLen / powF p.lengthFactor (-effQ * (1/2)), p.initialThickness⟩
  (treeInterpGo p cosF sinF (degreesToRadians piQ p.angle) ρ s 0
    ⟨start, [], []⟩).linesRev.reverse

/-- `LSystemTree.reset()`: generation followed by interpretation, one
atomic operation.  `effectiveIterations` is read as a number; the
`iterations = 0` corner where the JS field stays `undefined` is mapped to
`0` (the value is ρ-independent either way, which is all C9 needs). -/
def LSystemTree.reset (p : TurtleSysParams) (width height piQ : ℚ)
    (cosF sinF : ℚ → ℚ) (powF : ℚ → ℚ → ℚ) (ρ : ℕ → ℚ) : List LineSeg :=
  let g := generateSystem p.rules p.seed p.iterations
  LSystemTree.interpretSystem p width height piQ cosF sinF powF ρ
    ((g.effectiveIterations.getD 0 : Nat) : ℚ) g.currentString

/-- One character of `KochSnowflake.interpretSystem`'s `switch`: no
jitter, constant thickness, `[`/`]` push/pop without shrink or leaf. -/
def kochStepChar (cosF sinF : ℚ → ℚ) (angleRad : ℚ) (st : TState) (c : Char) :
    TState :=
  if c = 'F' then
    let nextX := st.cur.x + cosF st.cur.angle * st.cur.len
    let nextY := st.cur.y + sinF st.cur.angle * st.cur.len
    { st with
      cur := { st.cur with x := nextX, y := nextY },
      linesRev := ⟨st.cur.x, st.cur.y, nextX, nextY,
        st.cur.thickness, LeafInfo.noLeaf⟩ :: st.linesRev }
  else if c = '+' then
    { st with cur := { st.cur with angle := st.cur.angle + angleRad } }
  else if c = '-' then
    { st with cur := { st.cur with angle := st.cur.angle - angleRad } }
  else if c = '[' then
    { st with stack := st.cur :: st.stack }
  else if c = ']' then
    match st.stack with
    | t :: rest => { st with cur := t, stack := rest }
    | [] => st
  else st

/-- `KochSnowflake.interpretSystem()` on the generated string: starts at
`(0.2·width, 0.7·height)` heading `initialAngle = 0`, with length
`0.6·width / pow(3, effOrIters·0.8)`. -/
def KochSnowflake.interpretSystem (p : TurtleSysParams) (width height piQ : ℚ)
    (cosF sinF : ℚ → ℚ) (powF : ℚ → ℚ → ℚ) (effOrIters : ℚ)
    (s : List Char) : List LineSeg :=
  let usableWidth := width * (3/5)
  let currentLen := usableWidth / powF 3 (effOrIters * (4/5))
  let start : TurtleState :=
    ⟨width * (1/5), height * (7/10), 0, currentLen, p.initialThickness⟩
  ((s.foldl (kochStepChar cosF sinF (degreesToRadians piQ p.angle))
    ⟨start, [], []⟩ : TState)).linesRev.reverse

/-- `KochSnowflake.reset()`: generation then interpretation;
`this.effectiveIterations || this.params.iterations` (JS falsiness: an
unset field or a zero count falls back to the requested count). -/
def KochSnowflake.reset (p : TurtleSysParams) (width height piQ : ℚ)
    (cosF sinF : ℚ → ℚ) (powF : ℚ → ℚ → ℚ) : List LineSeg :=
  let g := generateSystem p.rules p.seed p.iterations
  let effOrIters : ℚ :=
    match g.effectiveIterations with
    | some e => if e = 0 then (p.iterations : ℚ) else (e : ℚ)
    | none => (p.iterations : ℚ)
  KochSnowflake.interpretSystem p width height piQ cosF sinF powF effOrIters
    g.currentString

/-- With `randomness = 0` the Tree character loop ignores the random
stream entirely: both jitter products collapse to `0` and `1`. -/
lemma treeInterpGo_randfree (p : TurtleSysParams) (hrand : p.randomness = 0)
    (cosF sinF : ℚ → ℚ) (angleRad : ℚ) (ρ₁ ρ₂ : ℕ → ℚ) :
    ∀ (s : List Char) (k₁ k₂ : ℕ) (st : TState),
      treeInterpGo p cosF sinF angleRad ρ₁ s k₁ st
        = treeInterpGo p cosF sinF angleRad ρ₂ s k₂ st := by
  intro s
  induction s with
  | nil =>
    intro k₁ k₂ st
    rfl
  | cons c cs ih =>
    intro k₁ k₂ st
    simp only [treeInterpGo]
    rw [show (ρ₁ (2 * k₁) - 1/2) * angleRad * p.randomness = 0 by rw [hrand]; ring,
      show (1 : ℚ) + (ρ₁ (2 * k₁ + 1) - 1/2) * p.randomness * (1/2) = 1 by rw [hrand]; ring,
      show (ρ₂ (2 * k₂) - 1/2) * angleRad * p.randomness = 0 by rw [hrand]; ring,
      show (1 : ℚ) + (ρ₂ (2 * k₂ + 1) - 1/2) * p.randomness * (1/2) = 1 by rw [hrand]; ring]
    exact ih (k₁ + 1) (k₂ + 1) _

/-- **C9.**  With the jitter parameter `randomness = 0`, two `reset()`
runs (generation followed by turtle interpretation, any two random
streams `ρ₁`, `ρ₂`) produce identical ordered segment lists — same count,
coordinates, thicknesses and decorations — for the Tree variant; the
Koch variant's interpreter never reads the random source, so its output
is literally a function of the parameters alone.  The theorem holds for
every direction/power function (`cosF`, `sinF`, `powF`) and every value
of the `Math.PI` stand-in, hence in particular for the real
cosine/sine/pow. -/
theorem lsystem_deterministic (p kp : TurtleSysParams) (width height piQ : ℚ)
    (cosF sinF : ℚ → ℚ) (powF : ℚ → ℚ → ℚ) (ρ₁ ρ₂ : ℕ → ℚ)
    (hrand : p.randomness = 0) :
    LSystemTree.reset p width height piQ cosF sinF powF ρ₁
      = LSystemTree.reset p width height piQ cosF sinF powF ρ₂ ∧
    KochSnowflake.reset kp width height piQ cosF sinF powF
      = KochSnowflake.reset kp width height piQ cosF sinF powF := by
  refine ⟨?_, rfl⟩
  unfold LSystemTree.reset LSystemTree.interpretSystem
  exact congrArg (fun t : TState => t.linesRev.reverse)
    (treeInterpGo_randfree p hrand cosF sinF _ ρ₁ ρ₂ _ 0 0 _)

/-- Witness for C9: a concrete parameter set with `randomness = 0`
(Koch-style rules `F → F-F++F-F`), two different streams (all-0 vs
all-1/2), sample direction functions: both runs coincide. -/
theorem lsystem_deterministic_witness :
    LSystemTree.reset
      ⟨2, 60, ['F'], (fun c => if c = 'F' then some ['F', '-', 'F', '+', '+', 'F', '-', 'F'] else none),
        3/10, 1/3, 2, 1, 0⟩ 100 100 3 (fun _ => 1) (fun _ => 0) (fun _ _ => 1) (fun _ => 0)
      = LSystemTree.reset
      ⟨2, 60, ['F'], (fun c => if c = 'F' then some ['F', '-', 'F', '+', '+', 'F', '-', 'F'] else none),
        3/10, 1/3, 2, 1, 0⟩ 100 100 3 (fun _ => 1) (fun _ => 0) (fun _ _ => 1) (fun _ => 1/2) ∧
    KochSnowflake.reset
      ⟨2, 60, ['F'], (fun c => if c = 'F' then some ['F', '-', 'F', '+', '+', 'F', '-', 'F'] else none),
        3/10, 1/3, 2, 1, 0⟩ 100 100 3 (fun _ => 1) (fun _ => 0) (fun _ _ => 1)
      = KochSnowflake.reset
      ⟨2, 60, ['F'], (fun c => if c = 'F' then some ['F', '-', 'F', '+', '+', 'F', '-', 'F'] else none),
        3/10, 1/3, 2, 1, 0⟩ 100 100 3 (fun _ => 1) (fun _ => 0) (fun _ _ => 1) :=
  lsystem_deterministic _ _ 100 100 3 (fun _ => 1) (fun _ => 0) (fun _ _ => 1)
    (fun _ => 0) (fun _ => 1/2) rfl
